import Mathlib

/-!
Verification development for the gossip-protocol repository.

The Go sources are shallowly embedded: pure functions become Lean functions,
handlers become explicit state-passing functions, Go maps and sets become
association lists and duplicate-free lists (Go map iteration order is
unspecified; where the source iterates a map we fix insertion order, and no
theorem below depends on that order), `big.Int` values (all nonnegative here)
become `Int`/`Nat`, and cryptographic primitives (scrypt, SHA-256, RSA
signatures, address resolution) are oracle parameters, since their outputs
are opaque byte strings to the code under verification.
-/

namespace Gossip

/-- Result of a Go runtime panic that the embedded code can raise
(slice bound out of range, as in `mrand.Perm(n)[:k]` with `k > n`). -/
inductive GoPanic where
  | sliceOutOfRange
deriving DecidableEq, Repr

/-- Go slice expression `s[:k]`. For a freshly allocated slice (such as the
result of `mrand.Perm`) the capacity equals the length, so the expression
yields the first `k` elements when `k ≤ len(s)` and panics otherwise. -/
def goSliceTo (s : List α) (k : Nat) : Except GoPanic (List α) :=
  if k ≤ s.length then .ok (s.take k) else .error .sliceOutOfRange

/-! ## Secure transport: `src/crypto/securecomm` -/

/-- Constant `ScryptNonceSize` from identity_proof.go. -/
def ScryptNonceSize : Nat := 64

/-- Constant `ScryptRepetition` from identity_proof.go. -/
def ScryptRepetition : Nat := 200

/-- Constant `ScryptHashlength` from identity_proof.go. -/
def ScryptHashlength : Nat := 128

/-- Abstraction of `rsa.PublicKey`: only `Size()` (byte length of the
modulus) is inspected by the embedded code; the key itself is opaque. -/
structure RSAPublicKey where
  size : Nat
deriving DecidableEq, Repr

/-- Abstraction of Go `time.Time`: the Unix-seconds value together with the
`IsZero()` flag (the zero `time.Time` is not Unix second 0, so the flag is
carried separately). -/
structure GoTime where
  unix : Int
  isZero : Bool
deriving DecidableEq, Repr

/-- The `Handshake` record of secureconn.go. `nonce = none` models a nil
Go slice (`len(nil) = 0`); `addr = none` models a nil `net.Addr`. -/
structure Handshake where
  dhPub : List Nat
  rsaPub : RSAPublicKey
  time : GoTime
  addr : Option String
  nonce : Option (List Nat)
  rsaSig : List Nat
  isClient : Bool
deriving DecidableEq, Repr

/-- Go `len` on a possibly-nil byte slice. -/
def goLen : Option (List Nat) → Nat
  | none => 0
  | some l => l.length

/-- The structural-sanity predicate `(*Handshake).isValid` of
secureconn.go lines 55-63. -/
def Handshake.isValid (h : Handshake) : Bool :=
  h.dhPub.length == 256 &&
  h.rsaPub.size == 512 &&
  !h.time.isZero &&
  (match h.addr with
   | none => false
   | some s => s != "") &&
  goLen h.nonce == ScryptNonceSize &&
  h.rsaSig.length == 512

/-- The `Message` union of secureconn.go: either raw data or a handshake.
`data = none` models a nil `Data` slice. -/
structure SecMessage where
  data : Option (List Nat)
  handshake : Handshake
deriving DecidableEq, Repr

/-- Threshold function `PoWThreshold` of identity_proof.go:
`k = (2^bits - 1) / repetition` computed with `big.Int` operations
(`Exp`, then `Sub`, then `Div`). `2^bits ≥ 1`, so the intermediate values
are nonnegative and can be computed in `Nat` before the final Euclidean
`big.Int` division, which on nonnegative operands is `Nat` division. -/
def PoWThreshold (repetition bits : Nat) : Int :=
  ((2 ^ bits - 1 : Nat) : Int) / (repetition : Int)

/-- The threshold actually used by the secure-transport admission code:
`PoWThreshold(ScryptRepetition, ScryptHashlength*8)`. -/
def scryptPoWThreshold : Int := PoWThreshold ScryptRepetition (ScryptHashlength * 8)

/-- Function `checkProofOfWorkValidity` of identity_proof.go. `hashVal()`
returns an error iff `h.Nonce == nil`; otherwise the scrypt digest of the
handshake identifiers keyed by the nonce is interpreted as a big-endian
integer (abstracted by the `scryptHash` oracle) and compared with the
threshold. Returns `true` iff the function returns a nil error. -/
def checkProofOfWorkValidity (scryptHash : Handshake → Nat) (h : Handshake) : Bool :=
  match h.nonce with
  | none => false
  | some _ => decide ((scryptHash h : Int) ≤ scryptPoWThreshold)

/-- Loop body of `ProofOfWork` (identity_proof.go lines 94-113): trial `i`
evaluates the scrypt oracle on the handshake carrying nonce `nonces i`;
on success the handshake with that nonce is returned, otherwise the next
nonce is drawn. After the fuel is exhausted the nonce is cleared and an
error is returned. -/
def proofOfWorkAux (scryptHash : Handshake → Nat) (h : Handshake)
    (nonces : Nat → List Nat) : Nat → Nat → Except String Handshake
  | _, 0 => .error "securecomm: No suitable nonces found for PoW"
  | i, fuel + 1 =>
    let hsi := { h with nonce := some (nonces i) }
    if (scryptHash hsi : Int) ≤ scryptPoWThreshold then .ok hsi
    else proofOfWorkAux scryptHash h nonces (i + 1) fuel

/-- Function `ProofOfWork` of identity_proof.go: tries the random nonces
`nonces 0, nonces 1, ...` for `2 * ScryptRepetition` iterations against
`PoWThreshold(ScryptRepetition, ScryptHashlength*8)`. -/
def ProofOfWork (scryptHash : Handshake → Nat) (nonces : Nat → List Nat)
    (h : Handshake) : Except String Handshake :=
  proofOfWorkAux scryptHash h nonces 0 (2 * ScryptRepetition)

/-- The regular expression `^[1-9A-F]{64}$` of parser/identity/identity.go,
applied to a file name given as its byte string: 64 bytes, each an ASCII
digit `1`-`9` (0x31-0x39) or letter `A`-`F` (0x41-0x46). -/
def identityRegexMatches (name : List Nat) : Bool :=
  name.length == 64 &&
  name.all (fun c => (0x31 ≤ c && c ≤ 0x39) || (0x41 ≤ c && c ≤ 0x46))

/-- Function `identity.Parse` of parser/identity/identity.go: keep the
names of the directory entries that match the regular expression.
The directory listing is the `files` parameter. -/
def identityParse (files : List (List Nat)) : List (List Nat) :=
  files.filter identityRegexMatches

/-- Function `CheckIdentity` of identity_proof.go lines 116-126: `digest`
is the byte string `string(shaKey[:])` where `shaKey` is the SHA-256 sum
(32 bytes) of the PKCS#1-marshalled public key; the function returns a nil
error iff some parsed file name equals that byte string. Returns `true`
iff the Go function returns nil. -/
def CheckIdentity (digest : List Nat) (files : List (List Nat)) : Bool :=
  (identityParse files).any (fun v => v == digest)

/-- Error kinds of the handshake validation pipeline. -/
inductive HsError where
  | messageError
  | powInvalid
  | untrusted
  | addrMismatch
  | sigInvalid
deriving DecidableEq, Repr

/-- Remote-record validation performed by the client
(`(*clientHandshakeState).doFullHandshake`, handshake_client.go
lines 189-210): the received message is rejected as malformed iff
`Data != nil || IsClient == true || isValid()` — note the un-negated
`isValid()` in the source — then proof of work, trusted identity and the
RSA-PSS signature (oracle `sigOk`) are checked in order. `digestOf`
abstracts SHA-256 of the PKCS#1 marshalling of the advertised key and
`files` is the trust-directory listing. -/
def clientValidateRemote (scryptHash : Handshake → Nat)
    (digestOf : RSAPublicKey → List Nat) (files : List (List Nat))
    (sigOk : Handshake → Bool) (m : SecMessage) : Except HsError Unit :=
  if m.data.isSome || m.handshake.isClient || m.handshake.isValid then
    .error .messageError
  else if !checkProofOfWorkValidity scryptHash m.handshake then
    .error .powInvalid
  else if !CheckIdentity (digestOf m.handshake.rsaPub) files then
    .error .untrusted
  else if !sigOk m.handshake then
    .error .sigInvalid
  else
    .ok ()

/-- Remote-record validation performed by the server
(`(*serverHandshakeState).doFullHandshake`, handshake_server.go
lines 57-81): reject iff `len(Data) != 0 || IsClient == false ||
!isValid()`; then proof of work, trusted identity, address comparison
(oracle `addrOk`, for `utils.TCPAddrCmp` against the connection address)
and the RSA-PSS signature are checked in order. -/
def serverValidateRemote (scryptHash : Handshake → Nat)
    (digestOf : RSAPublicKey → List Nat) (files : List (List Nat))
    (addrOk : Handshake → Bool) (sigOk : Handshake → Bool)
    (m : SecMessage) : Except HsError Unit :=
  if goLen m.data != 0 || m.handshake.isClient == false || !m.handshake.isValid then
    .error .messageError
  else if !checkProofOfWorkValidity scryptHash m.handshake then
    .error .powInvalid
  else if !CheckIdentity (digestOf m.handshake.rsaPub) files then
    .error .untrusted
  else if !addrOk m.handshake then
    .error .addrMismatch
  else if !sigOk m.handshake then
    .error .sigInvalid
  else
    .ok ()

/-! ## Membership controller: `src/gossip/membership_controller.go` -/

/-- The `Peer` struct of core/peer.go: a TCP/IP address string. -/
structure Peer where
  addr : String
deriving DecidableEq, Repr

/-- Set insertion as done by `set.Set.Add` / `indexedset.IndexedSet.Add`:
a no-op when the element is already a member, otherwise appended. The Go
set is a hash map; we model it as a duplicate-free list in insertion
order. -/
def setInsert (l : List Peer) (p : Peer) : List Peer :=
  if p ∈ l then l else l ++ [p]

/-- The `MembershipPushRequestMSGPayload` struct of
membership_controller_message.go (`From`, `To`, `When` in Unix seconds,
`Nonce`). -/
structure PushRequest where
  fromPeer : Peer
  toPeer : Peer
  when : Int
  nonce : Nat
deriving DecidableEq, Repr

/-- Messages the membership controller emits to the Central controller
that the embedded handlers below produce. -/
inductive MCOutMsg where
  | peerAdd (p : Peer)
  | peerRemove (p : Peer)
deriving DecidableEq, Repr

/-- State of the `MembershipController` relevant to the embedded
handlers: the configuration fields (`p2pAddr`, `alphaSize`, `betaSize`,
`gammaSize`, `powConfig.validityDuration` in seconds,
`powConfig.repetition`) and the mutable collections. `viewList` and
`pullReplies` are indexed sets (duplicate-free lists in element order),
`pushRequests` and `pullPeers` are sets, `sampleListKeys` is the key list
of the `sampleList` indexed map, and `outMsgs` collects the internal
messages sent to `MsgOutQueue`. -/
structure MCState where
  p2pAddr : String
  alphaSize : Nat
  betaSize : Nat
  gammaSize : Nat
  validityDuration : Int
  powRepetition : Nat
  viewList : List Peer
  pushRequests : List Peer
  pullReplies : List Peer
  pullPeers : List Peer
  sampleListKeys : List Peer
  outMsgs : List MCOutMsg
deriving DecidableEq, Repr

/-- Handler `incomingPushRequestHandler` of membership_controller.go
lines 567-585. `now` is `time.Now().UTC()` in Unix seconds, so
`now - pr.when` is `time.Now().UTC().Sub(pr.When)`. `hashVal` abstracts
`pr.HashVal(hardness)` (scrypt digest as a big-endian integer; with the
fixed parameters the Go call cannot return an error) and `validAddr`
abstracts `ValidateAddr` / `net.ResolveTCPAddr`. -/
def incomingPushRequestHandler (validAddr : String → Bool)
    (hashVal : PushRequest → Nat) (now : Int) (st : MCState)
    (pr : PushRequest) : MCState :=
  if now - pr.when ≤ st.validityDuration ∧ pr.toPeer.addr = st.p2pAddr then
    if (hashVal pr : Int) ≤ PoWThreshold st.powRepetition 256 then
      if validAddr pr.fromPeer.addr then
        { st with pushRequests := setInsert st.pushRequests pr.fromPeer }
      else st
    else st
  else st

/-- Method `replaceViewList` of membership_controller.go lines 300-329:
peers of the old view missing from `newView` are removed (emitting
`PeerRemoveMSG`), peers of `newView` not already in the view are added
(emitting `PeerAddMSG`). The element order of the resulting view list
differs from Go's swap-remove order, but the membership is the same and
the source iterates it only through a hash map whose order is
unspecified anyway. -/
def replaceViewList (st : MCState) (newView : List Peer) : MCState :=
  let toBeRemoved := st.viewList.filter (fun p => !newView.contains p)
  let toBeAdded := newView.filter (fun p => !st.viewList.contains p)
  { st with
    viewList := st.viewList.filter (fun p => newView.contains p) ++ toBeAdded,
    outMsgs := st.outMsgs ++ toBeRemoved.map MCOutMsg.peerRemove
      ++ toBeAdded.map MCOutMsg.peerAdd }

/-- Method `updateRound` of membership_controller.go lines 403-431.
`permOf n` is the pseudo-random permutation `mrand.Perm(n)` of
`0, ..., n-1`; slicing it to `betaSize` (resp. `gammaSize`) elements
panics when the permutation is shorter, exactly as `mrand.Perm(n)[:k]`
does in Go. Out-of-range reads cannot occur for a genuine permutation,
so `getD` carries a dummy default. -/
def updateRound (permOf : Nat → List Nat) (st : MCState) :
    Except GoPanic MCState :=
  if st.pushRequests.length ≤ st.alphaSize ∧
      (st.pushRequests.length > 0 ∨ st.pullReplies.length > 0) then do
    let pushView := st.pushRequests.foldl setInsert []
    let pullIdx ← goSliceTo (permOf st.pullReplies.length) st.betaSize
    let pullView := pullIdx.foldl
      (fun acc i => setInsert acc (st.pullReplies.getD i ⟨""⟩)) pushView
    let sampleIdx ← goSliceTo (permOf st.sampleListKeys.length) st.gammaSize
    let fullView := sampleIdx.foldl
      (fun acc i => setInsert acc (st.sampleListKeys.getD i ⟨""⟩)) pullView
    .ok (replaceViewList st fullView)
  else .ok st

/-- The `PeerSampler` of membership_controller.go: the pair of fields
`peer` and `peerPVal` (both nil before the first candidate, both set
together afterwards) collapses to one optional pair. -/
structure PeerSampler where
  cur : Option (Peer × Nat)
deriving DecidableEq, Repr

/-- Method `(*PeerSampler).Next` of membership_controller.go
lines 176-199. `perm` abstracts `MinWiseIndependentPermutation.Permute`
(AES-ECB of the SHA-256 of the address, read as a big-endian integer);
it is fixed per sampler. The first candidate is always accepted; a later
candidate is accepted iff its permuted value is strictly smaller. -/
def PeerSampler.Next (perm : Peer → Nat) (s : PeerSampler) (p : Peer) :
    PeerSampler :=
  match s.cur with
  | none => ⟨some (p, perm p)⟩
  | some (q, v) => if perm p < v then ⟨some (p, perm p)⟩ else ⟨some (q, v)⟩

/-- A fresh sampler (`NewPeerSampler`): no current peer. -/
def emptySampler : PeerSampler := ⟨none⟩

/-- Feeding a sequence of candidates to a fresh sampler through `Next`. -/
def runSampler (perm : Peer → Nat) (ps : List Peer) : PeerSampler :=
  ps.foldl (PeerSampler.Next perm) emptySampler

/-! ## Gossiper: `src/gossip/gossiper.go` and `gossip_item.go` -/

/-- The `GossipItem` struct: a 16-bit data type tag and the payload. -/
structure GossipItem where
  dataType : Nat
  data : String
deriving DecidableEq, Repr

/-- The `MedianCounterState` enumeration (B = 0, C = 1, D = 2; state A is
represented by absence). -/
inductive MedianCounterState where
  | B
  | C
  | D
deriving DecidableEq, Repr

/-- Numeric value of a `MedianCounterState`, as in the Go `iota`
enumeration. -/
def MedianCounterState.toNat : MedianCounterState → Nat
  | .B => 0
  | .C => 1
  | .D => 2

/-- The `GossipItemState` struct (counter and ttl are `uint8`,
`medianRule` is a signed accumulator). -/
structure GossipItemState where
  state : MedianCounterState
  counter : Nat
  ttl : Nat
  medianRule : Int
deriving DecidableEq, Repr

/-- Encoding used by `(*GossipItemState).Cmp`:
`(uint16(state) << 8) | uint16(counter)`. Since `counter` is a `uint8`
(below 256) in Go, the bitwise or is plain addition. -/
def GossipItemState.encode (s : GossipItemState) : Nat :=
  s.state.toNat * 256 + s.counter

/-- Method `(*GossipItemState).Cmp`: 1, -1 or 0 according to the order of
the encodings (state first, then counter). -/
def GossipItemState.Cmp (ls rs : GossipItemState) : Int :=
  if ls.encode > rs.encode then 1
  else if ls.encode < rs.encode then -1
  else 0

/-- The `GossipItemInfoGossiper` struct: the median-counter state of an
item plus its borrowed peer list. -/
structure GossipItemInfo where
  s : GossipItemState
  peerList : List Peer
deriving DecidableEq, Repr

/-- The `GossipItemExtended` payload of an incoming push or pull-reply
entry: `item = none` models a nil `Item` pointer. -/
structure GossipItemExtended where
  item : Option GossipItem
  state : MedianCounterState
  counter : Nat
deriving DecidableEq, Repr

/-- Lookup in a Go `map[GossipItem]*GossipItemInfoGossiper`, modelled as
an association list with unique keys. -/
def mapLookup (m : List (GossipItem × GossipItemInfo)) (k : GossipItem) :
    Option GossipItemInfo :=
  match m with
  | [] => none
  | kv :: rest => if kv.1 = k then some kv.2 else mapLookup rest k

/-- Map store `m[k] = v`: replaces the value of an existing key, appends
a fresh key. -/
def mapInsert (m : List (GossipItem × GossipItemInfo)) (k : GossipItem)
    (v : GossipItemInfo) : List (GossipItem × GossipItemInfo) :=
  match m with
  | [] => [(k, v)]
  | kv :: rest => if kv.1 = k then (k, v) :: rest else kv :: mapInsert rest k v

/-- State of the `Gossiper` struct: the configuration fields
(`cacheSize`, `degree`, `maxTTL`, `mcConfig.bMax`, `mcConfig.cMax`) and
the mutable collections (`gossipList`, `oldGossipList`,
`incomingGossips` as association lists, `nextRoundPullPeers` and
`pullPeers` as sets). -/
structure GossiperState where
  cacheSize : Nat
  degree : Nat
  maxTTL : Nat
  bMax : Nat
  cMax : Nat
  gossipList : List (GossipItem × GossipItemInfo)
  oldGossipList : List (GossipItem × GossipItemInfo)
  incomingGossips : List (GossipItem × GossipItemInfo)
  nextRoundPullPeers : List Peer
  pullPeers : List Peer
deriving DecidableEq, Repr

/-- The `newInfo` computed by `checkAndAddIncomingGossip`
(gossiper.go lines 437-457): a state-B push is admitted with its counter
iff `counter < bMax`, a state-C push is admitted with counter 0 iff
`counter < cMax`; the Go `switch` has no case for state D, so `newInfo`
stays nil there. -/
def newIncomingInfo (g : GossiperState) (itemExt : GossipItemExtended) :
    Option GossipItemInfo :=
  match itemExt.state with
  | .B =>
    if itemExt.counter < g.bMax then
      some ⟨⟨.B, itemExt.counter, g.maxTTL, 0⟩, []⟩
    else none
  | .C =>
    if itemExt.counter < g.cMax then
      some ⟨⟨.C, 0, g.maxTTL, 0⟩, []⟩
    else none
  | .D => none

/-- Method `checkAndAddIncomingGossip` of gossiper.go lines 432-473.
Returns the updated state together with `true` iff the Go method returns
a nil error (which happens only on a fresh insertion; a dominant-state
replacement still falls through to the error return). -/
def checkAndAddIncomingGossip (g : GossiperState)
    (itemExt : GossipItemExtended) : GossiperState × Bool :=
  match itemExt.item with
  | none => (g, false)
  | some item =>
    match newIncomingInfo g itemExt with
    | none => (g, false)
    | some ninfo =>
      match mapLookup g.incomingGossips item with
      | some info =>
        if info.s.Cmp ninfo.s < 0 then
          ({ g with incomingGossips := mapInsert g.incomingGossips item ninfo },
           false)
        else (g, false)
      | none =>
        ({ g with incomingGossips := mapInsert g.incomingGossips item ninfo },
         true)

/-- Handler `incomingPushHandler` of gossiper.go lines 477-487: ignore
the push when the incoming batch is already at `cacheSize`, otherwise
run `checkAndAddIncomingGossip`. -/
def incomingPushHandler (g : GossiperState) (itemExt : GossipItemExtended) :
    GossiperState :=
  if g.incomingGossips.length ≥ g.cacheSize then g
  else (checkAndAddIncomingGossip g itemExt).1

/-- The `GossipIncomingPullReplyMSGPayload` struct: sender and item
list. -/
structure GossipPullReply where
  fromPeer : Peer
  itemList : List GossipItemExtended
deriving DecidableEq, Repr

/-- The merge loop of `incomingPullReplyHandler`
(`for i := 0; i < len(reply.ItemList) && upTo > 0; i++`), decrementing
the free-slot budget only on a nil-error (fresh) insertion. -/
def processPullItems (g : GossiperState) (items : List GossipItemExtended)
    (upTo : Nat) : GossiperState :=
  match items with
  | [] => g
  | x :: rest =>
    if upTo > 0 then
      let step := checkAndAddIncomingGossip g x
      processPullItems step.1 rest (if step.2 then upTo - 1 else upTo)
    else g

/-- Handler `incomingPullReplyHandler` of gossiper.go lines 510-529:
replies from peers that were never sent a pull request are ignored;
otherwise the items are merged into the incoming batch up to the free
cache slots and the sender is removed from `pullPeers`. -/
def incomingPullReplyHandler (g : GossiperState) (reply : GossipPullReply) :
    GossiperState :=
  if reply.fromPeer ∈ g.pullPeers then
    let merged := processPullItems g reply.itemList
      (g.cacheSize - g.incomingGossips.length)
    { merged with pullPeers := merged.pullPeers.filter (fun p => p ≠ reply.fromPeer) }
  else g

/-! ## Central controller: `randomPeerListRequestHandler` -/

/-- State of the Central controller relevant to
`randomPeerListRequestHandler`: the mirror view as the indexed map's key
list with each peer's usage counter, plus the `RandomPeerListReplyMSG`
payloads (`Related`, `RandomPeers`) sent to the Gossiper. -/
structure CCState where
  viewList : List (Peer × Int)
  replies : List (Option GossipItem × List Peer)
deriving DecidableEq, Repr

/-- Increment the usage counter of the view entry at position `i`. -/
def bumpUsageAt (l : List (Peer × Int)) (i : Nat) : List (Peer × Int) :=
  match l, i with
  | [], _ => []
  | x :: xs, 0 => (x.1, x.2 + 1) :: xs
  | x :: xs, n + 1 => x :: bumpUsageAt xs n

/-- Handler `randomPeerListRequestHandler` of the Central controller:
`randomIndexes := mrand.Perm(viewList.Len())[:msg.Num]` — the slice
panics when `msg.Num` exceeds the view size — then for each index the
peer is appended to the reply and its usage counter incremented, and the
reply is sent to the Gossiper. `permOf n` models `mrand.Perm(n)`. -/
def randomPeerListRequestHandler (permOf : Nat → List Nat) (st : CCState)
    (related : Option GossipItem) (num : Nat) : Except GoPanic CCState := do
  let idx ← goSliceTo (permOf st.viewList.length) num
  let randomPeers := idx.map (fun i => (st.viewList.getD i (⟨""⟩, 0)).1)
  let bumped := idx.foldl bumpUsageAt st.viewList
  .ok { viewList := bumped, replies := st.replies ++ [(related, randomPeers)] }

/-! ## Theorems -/

set_option maxRecDepth 8000

/-- A fully well-formed remote handshake record: every field present and
of the declared length (`dhPub` 256 bytes, 512-byte RSA modulus, nonzero
time, nonempty address, 64-byte nonce, 512-byte signature), sent by a
server (`isClient = false`). -/
def saneHandshake : Handshake :=
  { dhPub := List.replicate 256 0, rsaPub := ⟨512⟩, time := ⟨1700000000, false⟩,
    addr := some "7f000001:1f90", nonce := some (List.replicate 64 1),
    rsaSig := List.replicate 512 2, isClient := false }

/-- The same record with its nonce missing: structurally malformed. -/
def malformedHandshake : Handshake := { saneHandshake with nonce := none }

/-- C1: the claim states that a handshake proceeds past the structural
check iff the record satisfies the structural-sanity predicate. On the
client side (handshake_client.go line 194) the check is inverted: the
record is rejected when `isValid()` is TRUE. This theorem evaluates the
client validation at the failing input: the fully well-formed
`saneHandshake` is rejected as `messageError`, while the malformed
record (missing nonce) passes the structural gate and only fails later
at the proof-of-work step. The server side (handshake_server.go line 62)
uses the correct `!isValid()`, and the error text says "Message format
is incorrect" — the client polarity is a slip. -/
theorem c1_client_structural_check_inverted :
    saneHandshake.isValid = true ∧
    clientValidateRemote (fun _ => 0) (fun _ => List.replicate 32 0) []
      (fun _ => true) { data := none, handshake := saneHandshake }
      = .error .messageError ∧
    malformedHandshake.isValid = false ∧
    clientValidateRemote (fun _ => 0) (fun _ => List.replicate 32 0) []
      (fun _ => true) { data := none, handshake := malformedHandshake }
      = .error .powInvalid :=
  ⟨by decide, rfl, by decide, rfl⟩

/-- Every name kept by `identity.Parse` matches the regular expression,
hence is 64 bytes long. -/
theorem identityParse_mem_length (files : List (List Nat)) (name : List Nat)
    (h : name ∈ identityParse files) : name.length = 64 := by
  unfold identityParse at h
  have hm := List.of_mem_filter h
  unfold identityRegexMatches at hm
  simp only [Bool.and_eq_true, beq_iff_eq] at hm
  exact hm.1

/-- Core of C2: `CheckIdentity` compares the raw 32-byte SHA-256 digest
string against directory entry names that are 64 characters long, so no
entry can ever match and the function never reports a trusted
identity. -/
theorem checkIdentity_never_trusts (digest : List Nat)
    (files : List (List Nat)) (hlen : digest.length = 32) :
    CheckIdentity digest files = false := by
  unfold CheckIdentity
  rw [List.any_eq_false]
  intro v hv
  have h64 := identityParse_mem_length files v hv
  simp only [beq_iff_eq]
  intro hEq
  rw [hEq, hlen] at h64
  cases h64

/-- A 32-byte digest (every byte 0xAB). -/
def sampleDigest : List Nat := List.replicate 32 171

/-- The 64-character lowercase hex encoding of `sampleDigest`
("abab...ab" as bytes). -/
def sampleDigestHexLower : List Nat := (List.replicate 32 [97, 98]).flatten

/-- The 64-character uppercase hex encoding of `sampleDigest`
("ABAB...AB" as bytes). -/
def sampleDigestHexUpper : List Nat := (List.replicate 32 [65, 66]).flatten

/-- C2: the claim states `CheckIdentity` returns nil exactly when the
trust directory contains the 64-lowercase-hex file name of the SHA-256
digest of the key. In the code, `identity.Parse` keeps only names
matching `^[1-9A-F]{64}$` (uppercase, and the characters `0` and
`a`-`f` are excluded) and `CheckIdentity` then compares each kept name
with the raw 32-byte digest string, never its hex encoding — so it
returns an error for every key and every directory. In particular a
directory holding exactly the claimed lowercase hex name (or even its
uppercase variant, which the regex does accept) is still rejected. -/
theorem c2_checkIdentity_never_trusts :
    (∀ digest files, digest.length = 32 → CheckIdentity digest files = false) ∧
    identityRegexMatches sampleDigestHexUpper = true ∧
    CheckIdentity sampleDigest [sampleDigestHexLower] = false ∧
    CheckIdentity sampleDigest [sampleDigestHexUpper] = false :=
  ⟨checkIdentity_never_trusts, by decide, by decide, by decide⟩

/-- Witness for C2: the hypothesis of the universally quantified part,
discharged at the concrete digest and directory. -/
theorem c2_witness :
    sampleDigest.length = 32 ∧
    CheckIdentity sampleDigest [sampleDigestHexUpper] = false :=
  ⟨by decide,
   c2_checkIdentity_never_trusts.1 sampleDigest [sampleDigestHexUpper] (by decide)⟩

/-- A successful server-side validation requires the identity check to
have succeeded. -/
theorem serverValidateRemote_ok_identity (scryptHash : Handshake → Nat)
    (digestOf : RSAPublicKey → List Nat) (files : List (List Nat))
    (addrOk sigOk : Handshake → Bool) (m : SecMessage)
    (h : serverValidateRemote scryptHash digestOf files addrOk sigOk m = .ok ()) :
    CheckIdentity (digestOf m.handshake.rsaPub) files = true := by
  unfold serverValidateRemote at h
  split at h
  · cases h
  · split at h
    · cases h
    · split at h
      · cases h
      · rename_i hid
        simpa using hid

/-- A successful client-side validation requires the identity check to
have succeeded. -/
theorem clientValidateRemote_ok_identity (scryptHash : Handshake → Nat)
    (digestOf : RSAPublicKey → List Nat) (files : List (List Nat))
    (sigOk : Handshake → Bool) (m : SecMessage)
    (h : clientValidateRemote scryptHash digestOf files sigOk m = .ok ()) :
    CheckIdentity (digestOf m.handshake.rsaPub) files = true := by
  unfold clientValidateRemote at h
  split at h
  · cases h
  · split at h
    · cases h
    · split at h
      · cases h
      · rename_i hid
        simpa using hid

/-- C3: every remote handshake record whose time field differs from the
local clock by more than the validity window is rejected. This holds,
but vacuously: neither `doFullHandshake` contains any freshness check —
the record's time is never compared with the clock — and instead every
remote record whatsoever is rejected, because `CheckIdentity` can never
succeed (the digest of the advertised key is 32 bytes and is compared
against 64-character file names, see `checkIdentity_never_trusts`). The
staleness hypothesis is therefore not used by the proof. -/
theorem c3_stale_records_rejected (scryptHash : Handshake → Nat)
    (digestOf : RSAPublicKey → List Nat) (files : List (List Nat))
    (addrOk sigOk : Handshake → Bool) (m : SecMessage) (now window : Int)
    (hdig : ∀ k, (digestOf k).length = 32)
    (hstale : window < |now - m.handshake.time.unix|) :
    serverValidateRemote scryptHash digestOf files addrOk sigOk m ≠ .ok () ∧
    clientValidateRemote scryptHash digestOf files sigOk m ≠ .ok () := by
  constructor
  · intro hok
    have hid := serverValidateRemote_ok_identity scryptHash digestOf files
      addrOk sigOk m hok
    rw [checkIdentity_never_trusts _ _ (hdig _)] at hid
    cases hid
  · intro hok
    have hid := clientValidateRemote_ok_identity scryptHash digestOf files
      sigOk m hok
    rw [checkIdentity_never_trusts _ _ (hdig _)] at hid
    cases hid

/-- Witness for C3: a concrete record 1699000000 seconds staler than the
clock, with a 60-second window, is rejected by the server validation. -/
theorem c3_witness :
    (List.replicate 32 (0 : Nat)).length = 32 ∧
    ((60 : Int) < |(1000000 : Int) - saneHandshake.time.unix|) ∧
    serverValidateRemote (fun _ => 0) (fun _ => List.replicate 32 0) []
      (fun _ => true) (fun _ => true)
      { data := none, handshake := saneHandshake } ≠ .ok () :=
  ⟨by decide, by decide,
   (c3_stale_records_rejected (fun _ => 0) (fun _ => List.replicate 32 0) []
     (fun _ => true) (fun _ => true) { data := none, handshake := saneHandshake }
     1000000 60 (fun _ => List.length_replicate 32 0) (by decide)).1⟩

/-- C4: the claim states the handler always completes and replies with
`min(n, |view|)` peers. The source slices `mrand.Perm(viewList.Len())`
to `msg.Num` elements, which panics with a slice-bounds violation as
soon as `msg.Num` exceeds the view size. At the failing input — empty
view, `n = 1` — the handler panics instead of replying with 0 peers;
with `n = 0` on the same view it does complete and replies with the
empty peer list, as the claim describes. (`List.range n` stands for the
pseudo-random `mrand.Perm(n)`; at view size 0 the permutation is the
empty list no matter the randomness.) -/
theorem c4_randomPeerList_panics_when_view_too_small :
    randomPeerListRequestHandler (fun n => List.range n) ⟨[], []⟩ none 1
      = .error .sliceOutOfRange ∧
    randomPeerListRequestHandler (fun n => List.range n) ⟨[], []⟩ none 0
      = .ok ⟨[], [(none, [])]⟩ :=
  ⟨rfl, rfl⟩

/-- A membership state one round before the update phase: `α·V = β·V =
γ·V = 1`, one accepted push originator, no pull replies, no samples. -/
def mcStateC5 : MCState :=
  { p2pAddr := "10.0.0.1:7001", alphaSize := 1, betaSize := 1, gammaSize := 1,
    validityDuration := 6, powRepetition := 512,
    viewList := [], pushRequests := [⟨"10.0.0.2:7001"⟩], pullReplies := [],
    pullPeers := [], sampleListKeys := [], outMsgs := [] }

/-- C5: the claim states the update phase builds the new view from up to
`α·V` push originators, up to `β·V` pull-reply peers and up to `γ·V`
sampled peers, for all sizes of those sets. At `mcStateC5` (one push
request, empty pull replies, `β·V = 1`) the claimed behaviour is a new
view `{10.0.0.2:7001}` with one emitted `PeerAdd`; the code instead
panics, because `mrand.Perm(pullReplies.Len())[:betaSize]` slices a
0-element permutation to 1 element. The second conjunct shows the other
divergence: with more than `α·V` distinct push requests the code skips
the whole update (view untouched, no `PeerAdd`/`PeerRemove` emitted)
rather than discarding only the push set. -/
theorem c5_updateRound_panics_on_small_pullReplies :
    updateRound (fun n => List.range n) mcStateC5 = .error .sliceOutOfRange ∧
    updateRound (fun n => List.range n)
      { mcStateC5 with
        pushRequests := [⟨"10.0.0.2:7001"⟩, ⟨"10.0.0.3:7001"⟩],
        pullReplies := [⟨"10.0.0.4:7001"⟩],
        sampleListKeys := [⟨"10.0.0.5:7001"⟩] }
      = .ok { mcStateC5 with
          pushRequests := [⟨"10.0.0.2:7001"⟩, ⟨"10.0.0.3:7001"⟩],
          pullReplies := [⟨"10.0.0.4:7001"⟩],
          sampleListKeys := [⟨"10.0.0.5:7001"⟩] } :=
  ⟨rfl, rfl⟩

/-- The acceptance condition the code actually applies to an incoming
membership push request: the signed clock difference `now - time` is at
most the validity window (a request dated in the future always passes),
the destination is the node itself, the scrypt hash is at most
`PoWThreshold(repetition, 256)` and the source address parses. -/
def pushAccepted (validAddr : String → Bool) (hashVal : PushRequest → Nat)
    (now : Int) (st : MCState) (pr : PushRequest) : Prop :=
  now - pr.when ≤ st.validityDuration ∧ pr.toPeer.addr = st.p2pAddr ∧
  (hashVal pr : Int) ≤ PoWThreshold st.powRepetition 256 ∧
  validAddr pr.fromPeer.addr = true

instance (validAddr : String → Bool) (hashVal : PushRequest → Nat)
    (now : Int) (st : MCState) (pr : PushRequest) :
    Decidable (pushAccepted validAddr hashVal now st pr) := by
  unfold pushAccepted; infer_instance

/-- C6 (amended): an incoming push request is added to `pushRequests`
iff the one-sided freshness bound `now - time ≤ validity_window` holds —
not the absolute difference `|now - time|` of the claim — together with
the destination, hash-threshold and source-address conditions, and on
any failing condition the controller state is unchanged. -/
theorem c6_incoming_push_acceptance (validAddr : String → Bool)
    (hashVal : PushRequest → Nat) (now : Int) (st : MCState)
    (pr : PushRequest) :
    incomingPushRequestHandler validAddr hashVal now st pr
      = (if pushAccepted validAddr hashVal now st pr
         then { st with pushRequests := setInsert st.pushRequests pr.fromPeer }
         else st) ∧
    (¬ pushAccepted validAddr hashVal now st pr →
      incomingPushRequestHandler validAddr hashVal now st pr = st) := by
  constructor
  · unfold incomingPushRequestHandler pushAccepted
    split
    · rename_i hfresh
      split
      · rename_i hhash
        by_cases hvalid : validAddr pr.fromPeer.addr = true
        · rw [if_pos hvalid, if_pos ⟨hfresh.1, hfresh.2, hhash, hvalid⟩]
        · rw [if_neg (by simpa using hvalid),
            if_neg (fun hc => hvalid hc.2.2.2)]
      · rename_i hhash
        rw [if_neg (fun hc => hhash hc.2.2.1)]
    · rename_i hfresh
      rw [if_neg (fun hc => hfresh ⟨hc.1, hc.2.1⟩)]
  · intro hnot
    unfold incomingPushRequestHandler pushAccepted at *
    split
    · rename_i hfresh
      split
      · rename_i hhash
        rw [if_neg (fun hvalid => hnot ⟨hfresh.1, hfresh.2, hhash, hvalid⟩)]
      · rfl
    · rfl

/-- A push request dated 1000 seconds in the future. -/
def futurePushRequest : PushRequest :=
  { fromPeer := ⟨"10.0.0.9:7001"⟩, toPeer := ⟨"10.0.0.1:7001"⟩,
    when := 1000, nonce := 0 }

/-- An idle membership controller state with a 10-second validity
window. -/
def mcStateC6 : MCState :=
  { p2pAddr := "10.0.0.1:7001", alphaSize := 1, betaSize := 1, gammaSize := 1,
    validityDuration := 10, powRepetition := 512,
    viewList := [], pushRequests := [], pullReplies := [], pullPeers := [],
    sampleListKeys := [], outMsgs := [] }

/-- Counterexample to C6 as stated: at local clock 0 the request of
`futurePushRequest` differs from the clock by 1000 seconds, far beyond
the 10-second window, so under the claimed condition
`|now - time| ≤ validity_window` it must be discarded and the state left
unchanged; the code accepts it (the check `now - time ≤ window` is
satisfied by any future-dated request) and adds its originator. -/
theorem c6_counterexample :
    ¬ (|(0 : Int) - futurePushRequest.when| ≤ mcStateC6.validityDuration) ∧
    (incomingPushRequestHandler (fun _ => true) (fun _ => 0) 0 mcStateC6
        futurePushRequest).pushRequests = [futurePushRequest.fromPeer] :=
  ⟨by decide, rfl⟩

/-- Witness for C6: at `futurePushRequest` the amended acceptance
condition holds and the handler adds the originator. -/
theorem c6_witness :
    incomingPushRequestHandler (fun _ => true) (fun _ => 0) 0 mcStateC6
        futurePushRequest
      = { mcStateC6 with pushRequests := [futurePushRequest.fromPeer] } := by
  rw [(c6_incoming_push_acceptance (fun _ => true) (fun _ => 0) 0 mcStateC6
    futurePushRequest).1, if_pos (by decide)]
  rfl

/-- The proof-of-work loop succeeds within `fuel` trials starting at
trial index `start` iff some trial in that range hashes at or below the
threshold. -/
theorem proofOfWorkAux_ok_iff (scryptHash : Handshake → Nat) (h : Handshake)
    (nonces : Nat → List Nat) :
    ∀ (fuel start : Nat),
      (∃ hOut, proofOfWorkAux scryptHash h nonces start fuel = .ok hOut) ↔
      ∃ j < fuel,
        (scryptHash { h with nonce := some (nonces (start + j)) } : Int)
          ≤ scryptPoWThreshold := by
  intro fuel
  induction fuel with
  | zero => intro start; simp [proofOfWorkAux]
  | succ n ih =>
    intro start
    by_cases hc : (scryptHash { h with nonce := some (nonces start) } : Int)
        ≤ scryptPoWThreshold
    · constructor
      · intro _
        exact ⟨0, Nat.succ_pos n, by simpa using hc⟩
      · intro _
        exact ⟨{ h with nonce := some (nonces start) },
          by simp [proofOfWorkAux, hc]⟩
    · have hstep : proofOfWorkAux scryptHash h nonces start (n + 1)
          = proofOfWorkAux scryptHash h nonces (start + 1) n := by
        simp [proofOfWorkAux, hc]
      rw [hstep, ih (start + 1)]
      constructor
      · rintro ⟨j, hj, hle⟩
        refine ⟨j + 1, Nat.succ_lt_succ hj, ?_⟩
        have harith : start + 1 + j = start + (j + 1) := by omega
        rw [harith] at hle
        exact hle
      · rintro ⟨j, hj, hle⟩
        cases j with
        | zero =>
          exact absurd (by simpa using hle) hc
        | succ k =>
          refine ⟨k, Nat.lt_of_succ_lt_succ hj, ?_⟩
          have harith : start + (k + 1) = start + 1 + k := by omega
          rw [harith] at hle
          exact hle

/-- When the proof-of-work loop succeeds, the returned handshake carries
one of the tried nonces and its hash meets the threshold. -/
theorem proofOfWorkAux_ok_spec (scryptHash : Handshake → Nat) (h : Handshake)
    (nonces : Nat → List Nat) :
    ∀ (fuel start : Nat) (hOut : Handshake),
      proofOfWorkAux scryptHash h nonces start fuel = .ok hOut →
      (scryptHash hOut : Int) ≤ scryptPoWThreshold ∧
      ∃ j < fuel, hOut = { h with nonce := some (nonces (start + j)) } := by
  intro fuel
  induction fuel with
  | zero => intro start hOut hrun; cases hrun
  | succ n ih =>
    intro start hOut hrun
    by_cases hc : (scryptHash { h with nonce := some (nonces start) } : Int)
        ≤ scryptPoWThreshold
    · have : hOut = { h with nonce := some (nonces start) } := by
        simp [proofOfWorkAux, hc] at hrun
        exact hrun.symm
      subst this
      exact ⟨hc, 0, Nat.succ_pos n, by simp⟩
    · have hstep : proofOfWorkAux scryptHash h nonces start (n + 1)
          = proofOfWorkAux scryptHash h nonces (start + 1) n := by
        simp [proofOfWorkAux, hc]
      rw [hstep] at hrun
      obtain ⟨hle, j, hj, hout⟩ := ih (start + 1) hOut hrun
      refine ⟨hle, j + 1, Nat.succ_lt_succ hj, ?_⟩
      have harith : start + (j + 1) = start + 1 + j := by omega
      rw [harith]
      exact hout

/-- When no trial in range meets the threshold, the loop returns the
"no suitable nonces" error. -/
theorem proofOfWorkAux_error_of_all_fail (scryptHash : Handshake → Nat)
    (h : Handshake) (nonces : Nat → List Nat) :
    ∀ (fuel start : Nat),
      (∀ j < fuel,
        scryptPoWThreshold
          < (scryptHash { h with nonce := some (nonces (start + j)) } : Int)) →
      proofOfWorkAux scryptHash h nonces start fuel
        = .error "securecomm: No suitable nonces found for PoW" := by
  intro fuel
  induction fuel with
  | zero => intro start _; rfl
  | succ n ih =>
    intro start hall
    have hc : ¬ (scryptHash { h with nonce := some (nonces start) } : Int)
        ≤ scryptPoWThreshold := by
      have := hall 0 (Nat.succ_pos n)
      simpa using Int.not_le.mpr (by simpa using this)
    have hstep : proofOfWorkAux scryptHash h nonces start (n + 1)
        = proofOfWorkAux scryptHash h nonces (start + 1) n := by
      simp [proofOfWorkAux, hc]
    rw [hstep]
    refine ih (start + 1) (fun j hj => ?_)
    have harith : start + 1 + j = start + (j + 1) := by omega
    rw [harith]
    exact hall (j + 1) (Nat.succ_lt_succ hj)

/-- C7: `PoWThreshold(repetition, bits)` is exactly
`(2^bits - 1) div repetition`; `checkProofOfWorkValidity` accepts iff a
nonce is present and the scrypt hash is at most
`PoWThreshold(ScryptRepetition, 128*8)`; and `ProofOfWork` succeeds iff
one of its at most `2 * ScryptRepetition` nonce trials hashes at or
below that threshold, returning a handshake whose nonce is one of the
tried nonces with a passing hash, and returns an error when every trial
fails. -/
theorem c7_pow_threshold_and_loop (rep bits : Nat) (hrep : 0 < rep)
    (scryptHash : Handshake → Nat) (nonces : Nat → List Nat)
    (h : Handshake) :
    PoWThreshold rep bits = ((2 ^ bits - 1) / rep : Nat) ∧
    (checkProofOfWorkValidity scryptHash h = true ↔
      h.nonce.isSome = true ∧
      (scryptHash h : Int) ≤ PoWThreshold ScryptRepetition (ScryptHashlength * 8)) ∧
    ((∃ hOut, ProofOfWork scryptHash nonces h = .ok hOut) ↔
      ∃ i < 2 * ScryptRepetition,
        (scryptHash { h with nonce := some (nonces i) } : Int)
          ≤ PoWThreshold ScryptRepetition (ScryptHashlength * 8)) ∧
    (∀ hOut, ProofOfWork scryptHash nonces h = .ok hOut →
      (scryptHash hOut : Int)
          ≤ PoWThreshold ScryptRepetition (ScryptHashlength * 8) ∧
      ∃ i < 2 * ScryptRepetition,
        hOut = { h with nonce := some (nonces i) }) ∧
    ((∀ i < 2 * ScryptRepetition,
        PoWThreshold ScryptRepetition (ScryptHashlength * 8)
          < (scryptHash { h with nonce := some (nonces i) } : Int)) →
      ProofOfWork scryptHash nonces h
        = .error "securecomm: No suitable nonces found for PoW") := by
  refine ⟨?_, ?_, ?_, ?_, ?_⟩
  · unfold PoWThreshold
    exact (Int.ofNat_div _ _).symm
  · cases hnonce : h.nonce with
    | none => simp [checkProofOfWorkValidity, hnonce]
    | some n => simp [checkProofOfWorkValidity, hnonce, scryptPoWThreshold]
  · have := proofOfWorkAux_ok_iff scryptHash h nonces (2 * ScryptRepetition) 0
    simpa [ProofOfWork, scryptPoWThreshold] using this
  · intro hOut hrun
    have := proofOfWorkAux_ok_spec scryptHash h nonces (2 * ScryptRepetition) 0
      hOut hrun
    simpa [scryptPoWThreshold] using this
  · intro hall
    have := proofOfWorkAux_error_of_all_fail scryptHash h nonces
      (2 * ScryptRepetition) 0 (by simpa [scryptPoWThreshold] using hall)
    simpa [ProofOfWork] using this

/-- Witness for C7 at `repetition = 3`, `bits = 8`. -/
theorem c7_witness : 0 < 3 ∧ PoWThreshold 3 8 = ((2 ^ 8 - 1) / 3 : Nat) :=
  ⟨by decide,
   (c7_pow_threshold_and_loop 3 8 (by decide) (fun _ => 0) (fun _ => [])
     saneHandshake).1⟩

/-- Folding `Next` from a sampler currently holding `q` yields a peer
whose permuted value is the minimum over `q` and all fed candidates. -/
theorem foldl_next_min (perm : Peer → Nat) :
    ∀ (ps : List Peer) (q : Peer),
      ∃ r, (ps.foldl (PeerSampler.Next perm) ⟨some (q, perm q)⟩).cur
          = some (r, perm r) ∧
        (r = q ∨ r ∈ ps) ∧ perm r ≤ perm q ∧ ∀ x ∈ ps, perm r ≤ perm x := by
  intro ps
  induction ps with
  | nil => intro q; exact ⟨q, rfl, Or.inl rfl, le_refl _, by simp⟩
  | cons p ps ih =>
    intro q
    have hstep : PeerSampler.Next perm ⟨some (q, perm q)⟩ p
        = if perm p < perm q then ⟨some (p, perm p)⟩
          else ⟨some (q, perm q)⟩ := rfl
    by_cases hlt : perm p < perm q
    · rw [List.foldl_cons, hstep, if_pos hlt]
      obtain ⟨r, hcur, hmem, hle, hall⟩ := ih p
      refine ⟨r, hcur, ?_, le_trans hle (le_of_lt hlt), ?_⟩
      · rcases hmem with h1 | h2
        · exact Or.inr (by simp [h1])
        · exact Or.inr (List.mem_cons_of_mem _ h2)
      · intro x hx
        rcases List.mem_cons.mp hx with h1 | h2
        · rw [h1]; exact hle
        · exact hall x h2
    · rw [List.foldl_cons, hstep, if_neg hlt]
      obtain ⟨r, hcur, hmem, hle, hall⟩ := ih q
      refine ⟨r, hcur, ?_, hle, ?_⟩
      · rcases hmem with h1 | h2
        · exact Or.inl h1
        · exact Or.inr (List.mem_cons_of_mem _ h2)
      · intro x hx
        rcases List.mem_cons.mp hx with h1 | h2
        · rw [h1]; exact le_trans hle (Nat.le_of_not_lt hlt)
        · exact hall x h2

/-- C8: a sampler holding a current peer with permuted value `v`
replaces it by a new candidate `p` iff `perm p < v` (first two
conjuncts), and feeding any nonempty candidate sequence `p :: ps` to a
fresh sampler leaves it holding exactly one current peer, drawn from the
candidates, whose permuted value together with its stored `peerPVal` is
the minimum permuted value among all candidates introduced so far. -/
theorem c8_sampler_invariants (perm : Peer → Nat) (q : Peer) (v : Nat)
    (p : Peer) (ps : List Peer) :
    (perm p < v → PeerSampler.Next perm ⟨some (q, v)⟩ p = ⟨some (p, perm p)⟩) ∧
    (¬ perm p < v → PeerSampler.Next perm ⟨some (q, v)⟩ p = ⟨some (q, v)⟩) ∧
    ∃ r ∈ p :: ps, (runSampler perm (p :: ps)).cur = some (r, perm r) ∧
      ∀ x ∈ p :: ps, perm r ≤ perm x := by
  refine ⟨fun hlt => by simp [PeerSampler.Next, hlt],
    fun hge => by simp [PeerSampler.Next, hge], ?_⟩
  unfold runSampler emptySampler
  rw [List.foldl_cons]
  have hfirst : PeerSampler.Next perm ⟨none⟩ p = ⟨some (p, perm p)⟩ := rfl
  rw [hfirst]
  obtain ⟨r, hcur, hmem, hle, hall⟩ := foldl_next_min perm ps p
  refine ⟨r, ?_, hcur, ?_⟩
  · rcases hmem with h1 | h2
    · rw [h1]; exact List.mem_cons_self p ps
    · exact List.mem_cons_of_mem _ h2
  · intro x hx
    rcases List.mem_cons.mp hx with h1 | h2
    · rw [h1]; exact hle
    · exact hall x h2

/-- Witness for C8: a concrete replacement step, with the antecedent
`perm p < v` discharged at `perm = const 0`, `v = 2`. -/
theorem c8_witness :
    PeerSampler.Next (fun _ => 0) ⟨some (⟨"10.0.0.2:7001"⟩, 2)⟩ ⟨"10.0.0.3:7001"⟩
      = ⟨some (⟨"10.0.0.3:7001"⟩, 0)⟩ :=
  (c8_sampler_invariants (fun _ => 0) ⟨"10.0.0.2:7001"⟩ 2 ⟨"10.0.0.3:7001"⟩ []).1
    (by decide)

/-- Looking up the key just stored finds the stored value. -/
theorem mapLookup_mapInsert_self (m : List (GossipItem × GossipItemInfo))
    (k : GossipItem) (v : GossipItemInfo) :
    mapLookup (mapInsert m k v) k = some v := by
  induction m with
  | nil => simp [mapInsert, mapLookup]
  | cons kv rest ih =>
    by_cases hk : kv.1 = k
    · simp [mapInsert, mapLookup, hk]
    · simp [mapInsert, mapLookup, hk, ih]

/-- `Cmp` of a state with itself is not negative (it is 0). -/
theorem cmp_self_not_lt (s : GossipItemState) : ¬ (s.Cmp s < 0) := by
  simp [GossipItemState.Cmp]

/-- `checkAndAddIncomingGossip` only ever changes the `incomingGossips`
field of the Gossiper. -/
theorem checkAndAdd_shape (g : GossiperState) (x : GossipItemExtended) :
    ∃ m, (checkAndAddIncomingGossip g x).1 = { g with incomingGossips := m } := by
  unfold checkAndAddIncomingGossip
  cases hitem : x.item with
  | none => exact ⟨g.incomingGossips, rfl⟩
  | some item =>
    cases hni : newIncomingInfo g x with
    | none => exact ⟨g.incomingGossips, rfl⟩
    | some ninfo =>
      cases hlk : mapLookup g.incomingGossips item with
      | none => exact ⟨mapInsert g.incomingGossips item ninfo, by simp [hlk]⟩
      | some info =>
        by_cases hcmp : info.s.Cmp ninfo.s < 0
        · exact ⟨mapInsert g.incomingGossips item ninfo, by simp [hlk, hcmp]⟩
        · exact ⟨g.incomingGossips, by simp [hlk, hcmp]⟩

/-- `newIncomingInfo` only reads the configuration fields, which an
update of `incomingGossips` leaves untouched. -/
theorem newIncomingInfo_config (g : GossiperState)
    (m : List (GossipItem × GossipItemInfo)) (x : GossipItemExtended) :
    newIncomingInfo { g with incomingGossips := m } x = newIncomingInfo g x := rfl

/-- Running `checkAndAddIncomingGossip` a second time with the same
payload leaves the state of the first run unchanged. -/
theorem checkAndAdd_idem (g : GossiperState) (x : GossipItemExtended) :
    (checkAndAddIncomingGossip (checkAndAddIncomingGossip g x).1 x).1
      = (checkAndAddIncomingGossip g x).1 := by
  unfold checkAndAddIncomingGossip
  cases hitem : x.item with
  | none => rfl
  | some item =>
    cases hni : newIncomingInfo g x with
    | none => simp [hni]
    | some ninfo =>
      cases hlk : mapLookup g.incomingGossips item with
      | none =>
        simp only [hlk, hni, newIncomingInfo_config,
          mapLookup_mapInsert_self, if_neg (cmp_self_not_lt ninfo.s)]
      | some info =>
        by_cases hcmp : info.s.Cmp ninfo.s < 0
        · simp only [hlk, hni, if_pos hcmp, newIncomingInfo_config,
            mapLookup_mapInsert_self, if_neg (cmp_self_not_lt ninfo.s)]
        · simp only [hlk, hni, if_neg hcmp]

/-- C9: receiving the same incoming gossip push twice between two
consecutive gossip rounds is equivalent to receiving it once — the
second invocation of `incomingPushHandler` with an identical payload
changes neither the incoming batch nor any other Gossiper state. If the
batch filled up to `cacheSize`, the second push is dropped by the
capacity gate; otherwise the item is already present with the identical
admitted info, whose `Cmp` against itself is 0, so no replacement is
stored. -/
theorem c9_incoming_push_idempotent (g : GossiperState)
    (x : GossipItemExtended) :
    incomingPushHandler (incomingPushHandler g x) x = incomingPushHandler g x := by
  unfold incomingPushHandler
  by_cases hfull : g.incomingGossips.length ≥ g.cacheSize
  · rw [if_pos hfull, if_pos hfull]
  · rw [if_neg hfull]
    by_cases hfull2 : (checkAndAddIncomingGossip g x).1.incomingGossips.length
        ≥ (checkAndAddIncomingGossip g x).1.cacheSize
    · rw [if_pos hfull2]
    · rw [if_neg hfull2]
      exact checkAndAdd_idem g x

/-- C10: a gossip pull reply from a peer to whom no pull request is in
flight is discarded without touching any part of the Gossiper state. -/
theorem c10_pull_reply_from_stranger_is_noop (g : GossiperState)
    (reply : GossipPullReply) (h : reply.fromPeer ∉ g.pullPeers) :
    incomingPullReplyHandler g reply = g ∧
    (incomingPullReplyHandler g reply).incomingGossips = g.incomingGossips ∧
    (incomingPullReplyHandler g reply).gossipList = g.gossipList ∧
    (incomingPullReplyHandler g reply).oldGossipList = g.oldGossipList ∧
    (incomingPullReplyHandler g reply).nextRoundPullPeers = g.nextRoundPullPeers ∧
    (incomingPullReplyHandler g reply).pullPeers = g.pullPeers := by
  have heq : incomingPullReplyHandler g reply = g := by
    unfold incomingPullReplyHandler
    rw [if_neg h]
  exact ⟨heq, by rw [heq], by rw [heq], by rw [heq], by rw [heq], by rw [heq]⟩

/-- A Gossiper mid-round: one active item, one pending pull peer, one
in-flight pull peer. -/
def gossiperW : GossiperState :=
  { cacheSize := 2, degree := 1, maxTTL := 3, bMax := 2, cMax := 2,
    gossipList := [(⟨7, "hi"⟩, ⟨⟨.B, 1, 3, 0⟩, [⟨"10.0.0.2:7001"⟩]⟩)],
    oldGossipList := [], incomingGossips := [],
    nextRoundPullPeers := [⟨"10.0.0.3:7001"⟩], pullPeers := [⟨"10.0.0.4:7001"⟩] }

/-- Witness for C10: a pull reply from `10.0.0.9:7001`, to whom no pull
request was sent, leaves `gossiperW` unchanged. -/
theorem c10_witness :
    (⟨"10.0.0.9:7001"⟩ : Peer) ∉ gossiperW.pullPeers ∧
    incomingPullReplyHandler gossiperW
      ⟨⟨"10.0.0.9:7001"⟩,
       [⟨some ⟨7, "hi"⟩, .B, 1⟩]⟩ = gossiperW :=
  ⟨by decide,
   (c10_pull_reply_from_stranger_is_noop gossiperW
     ⟨⟨"10.0.0.9:7001"⟩, [⟨some ⟨7, "hi"⟩, .B, 1⟩]⟩ (by decide)).1⟩

end Gossip
